import Mathlib

/-
Verification of the LinearElasticSpring element (OpenSees, SRC/element/twoNodeLink/
LinearElasticSpring.h) against its natural-language specification.

The repository sources contain only the class header.  The header is authoritative
for everything it states: the Etype layout enumeration (lines 40-44), the member
lists (lines 100-138), the constructor signature and its default arguments
(lines 51-55), and the class-wide static scratch matrices and vectors
(lines 140-148).  The bodies of the methods (the file LinearElasticSpring.cpp) are
not part of the sources, so every behavioral definition below is modelled from the
specification text and is marked as such in its doc comment.

All numeric state is embedded over the rationals; vectors are lists of rationals
and matrices are lists of rows.
-/

namespace LES

/-! ### List based linear algebra -/

/-- Dot product of two coordinate lists; extra entries of the longer list are
ignored, matching truncating zipWith semantics. -/
def dot (a b : List ℚ) : ℚ := (List.zipWith (fun p q => p * q) a b).sum

/-- Zero vector of the given length. -/
def zeroVec (n : ℕ) : List ℚ := List.replicate n 0

/-- Matrix times column vector: one dot product per row. -/
def mulVec (M : List (List ℚ)) (v : List ℚ) : List ℚ := M.map (fun r => dot r v)

/-- Column j of a row-list matrix, reading absent entries as 0. -/
def colOf (M : List (List ℚ)) (j : ℕ) : List ℚ := M.map (fun r => r.getD j 0)

/-- Transpose of M times a vector, produced with n output coordinates. -/
def tmulVec (M : List (List ℚ)) (v : List ℚ) (n : ℕ) : List ℚ :=
  (List.range n).map (fun j => dot v (colOf M j))

/-- Pointwise sum of two vectors (truncating). -/
def vecAdd (a b : List ℚ) : List ℚ := List.zipWith (fun p q => p + q) a b

/-- Scalar multiple of a vector. -/
def smulVec (c : ℚ) (v : List ℚ) : List ℚ := v.map (fun p => c * p)

/-- Standard basis vector i of length n. -/
def unitVec (n i : ℕ) : List ℚ := (List.range n).map (fun j => if j = i then 1 else 0)

/-- Add v to coordinate i of a vector (no effect past the end). -/
def addAt (l : List ℚ) (i : ℕ) (v : ℚ) : List ℚ := l.set i (l.getD i 0 + v)

/-- Add v to entry (i, j) of a matrix (no effect past the end). -/
def matAddAt (M : List (List ℚ)) (i j : ℕ) (v : ℚ) : List (List ℚ) :=
  M.set i (addAt (M.getD i []) j v)

/-- Transpose of M, produced with n rows. -/
def transposeL (M : List (List ℚ)) (n : ℕ) : List (List ℚ) :=
  (List.range n).map (fun i => colOf M i)

/-- Matrix product, with n columns taken from the right factor. -/
def matMul (A B : List (List ℚ)) (n : ℕ) : List (List ℚ) :=
  A.map (fun r => (List.range n).map (fun j => dot r (colOf B j)))

/-- Mirror the upper triangle of a square input into a full symmetric matrix. -/
def mirrorUpper (U : List (List ℚ)) : List (List ℚ) :=
  (List.range U.length).map (fun i => (List.range U.length).map (fun j =>
    if i ≤ j then (U.getD i []).getD j 0 else (U.getD j []).getD i 0))

/-! ### Evaluation lemmas for the helpers -/

theorem dot_cons (a : ℚ) (r : List ℚ) (x : ℚ) (xs : List ℚ) :
    dot (a :: r) (x :: xs) = a * x + dot r xs := by
  simp [dot]

theorem dot_zero_right (r : List ℚ) (n : ℕ) : dot r (zeroVec n) = 0 := by
  induction r generalizing n with
  | nil => simp [dot]
  | cons a t ih =>
    cases n with
    | zero => simp [dot, zeroVec]
    | succ m =>
      have h := ih m
      simp [zeroVec, List.replicate_succ, dot_cons] at h ⊢
      simpa [zeroVec] using h

theorem dot_zero_left (v : List ℚ) (n : ℕ) : dot (zeroVec n) v = 0 := by
  induction n generalizing v with
  | zero => simp [dot, zeroVec]
  | succ m ih =>
    cases v with
    | nil => simp [dot]
    | cons x xs =>
      have h := ih xs
      simp [zeroVec, List.replicate_succ, dot_cons] at h ⊢
      simpa [zeroVec] using h

theorem mulVec_zeroVec (M : List (List ℚ)) (n : ℕ) :
    mulVec M (zeroVec n) = zeroVec M.length := by
  induction M with
  | nil => simp [mulVec, zeroVec]
  | cons r t ih =>
    show dot r (zeroVec n) :: mulVec t (zeroVec n) = zeroVec (t.length + 1)
    rw [dot_zero_right, ih]
    rfl

theorem range_map_const (n : ℕ) (c : ℚ) :
    (List.range n).map (fun _ => c) = List.replicate n c := by
  induction n with
  | zero => simp
  | succ m ih =>
    rw [List.range_succ, List.map_append, ih, List.map_singleton,
      ← List.replicate_succ']

theorem tmulVec_zeroVec (M : List (List ℚ)) (k n : ℕ) :
    tmulVec M (zeroVec k) n = zeroVec n := by
  simp only [tmulVec, dot_zero_left]
  exact range_map_const n 0

theorem getD_zeroVec (n i : ℕ) : (zeroVec n).getD i 0 = 0 := by
  induction n generalizing i with
  | zero => simp [zeroVec]
  | succ m ih =>
    cases i with
    | zero => simp [zeroVec, List.replicate_succ]
    | succ k => simp [zeroVec, List.replicate_succ]

theorem vecAdd_zeroVec_right (v : List ℚ) (n : ℕ) (h : v.length ≤ n) :
    vecAdd v (zeroVec n) = v := by
  induction v generalizing n with
  | nil => simp [vecAdd]
  | cons a t ih =>
    cases n with
    | zero => simp at h
    | succ m =>
      simp [vecAdd, zeroVec, List.replicate_succ] at ih ⊢
      exact ih m (by simpa using h)

theorem vecAdd_zeroVec_zeroVec (a b : ℕ) :
    vecAdd (zeroVec a) (zeroVec b) = zeroVec (min a b) := by
  induction a generalizing b with
  | zero => simp [vecAdd, zeroVec]
  | succ m ih =>
    cases b with
    | zero => simp [vecAdd, zeroVec]
    | succ k =>
      have h := ih k
      simp only [zeroVec, vecAdd, List.replicate_succ, List.zipWith_cons_cons,
        Nat.succ_min_succ, add_zero] at h ⊢
      rw [h]

theorem set_getD {α : Type} (l : List α) (i : ℕ) (d : α) :
    l.set i (l.getD i d) = l := by
  induction l generalizing i with
  | nil => rfl
  | cons a t ih =>
    cases i with
    | zero => rw [List.getD_cons_zero, List.set_cons_zero]
    | succ k => rw [List.getD_cons_succ, List.set_cons_succ, ih]

theorem addAt_zero (l : List ℚ) (i : ℕ) : addAt l i 0 = l := by
  rw [addAt, add_zero, set_getD]

theorem matAddAt_zero (M : List (List ℚ)) (i j : ℕ) : matAddAt M i j 0 = M := by
  rw [matAddAt, addAt_zero, set_getD]

theorem getD_zero_of_all_zero (l : List ℚ) (i : ℕ) (h : ∀ m ∈ l, m = 0) :
    l.getD i 0 = 0 := by
  induction l generalizing i with
  | nil => simp
  | cons a t ih =>
    cases i with
    | zero => simpa using h a (by simp)
    | succ k =>
      simp only [List.getD_cons_succ]
      exact ih k (fun m hm => h m (List.mem_cons_of_mem a hm))

theorem dot_unit (r : List ℚ) (n i : ℕ) (hlen : r.length = n) (hi : i < n) :
    dot r (unitVec n i) = r.getD i 0 := by
  induction r generalizing n i with
  | nil =>
    subst hlen
    exact absurd hi (by simp)
  | cons a t ih =>
    subst hlen
    rw [unitVec]
    simp only [List.length_cons]
    rw [List.range_succ_eq_map, List.map_cons, List.map_map, dot_cons]
    cases i with
    | zero =>
      have hz : (List.range t.length).map ((fun j => if j = 0 then (1 : ℚ) else 0)
          ∘ Nat.succ) = List.replicate t.length 0 := by
        rw [← range_map_const t.length 0]
        exact List.map_congr_left (fun m _ => by simp [Function.comp])
      rw [hz]
      have := dot_zero_right t t.length
      simp [zeroVec] at this
      simp [this]
    | succ k =>
      have hk : k < t.length := by
        simp only [List.length_cons] at hi
        omega
      have hz : (List.range t.length).map ((fun j => if j = k + 1 then (1 : ℚ) else 0)
          ∘ Nat.succ) = unitVec t.length k := by
        rw [unitVec]
        exact List.map_congr_left (fun m _ => by simp [Function.comp])
      rw [hz, ih t.length k rfl hk]
      simp

theorem mulVec_unit (M : List (List ℚ)) (n i : ℕ)
    (hrows : ∀ r ∈ M, r.length = n) (hi : i < n) :
    mulVec M (unitVec n i) = colOf M i := by
  induction M with
  | nil => simp [mulVec, colOf]
  | cons r t ih =>
    simp only [mulVec, colOf, List.map_cons] at ih ⊢
    rw [dot_unit r n i (hrows r (by simp)) hi]
    rw [ih (fun s hs => hrows s (List.mem_cons_of_mem r hs))]

/-! ### Data model -/

/-- Layout enumeration from LinearElasticSpring.h lines 40-44: element NxDy has
dimension x in 1,2,3 and y in 2,4,6,12 degrees of freedom for the element. -/
inductive Etype
  | D1N2
  | D2N4
  | D2N6
  | D3N6
  | D3N12
  deriving DecidableEq

/-- Classifier table from the header Etype comment: a supported layout is keyed by
the spatial dimension and the total element DOF count. -/
def classifyDOF (numDIM numDOF : ℕ) : Option Etype :=
  if numDIM = 1 ∧ numDOF = 2 then some Etype.D1N2
  else if numDIM = 2 ∧ numDOF = 4 then some Etype.D2N4
  else if numDIM = 2 ∧ numDOF = 6 then some Etype.D2N6
  else if numDIM = 3 ∧ numDOF = 6 then some Etype.D3N6
  else if numDIM = 3 ∧ numDOF = 12 then some Etype.D3N12
  else none

/-- Stated from the words of the specification (sections 4.1 and 8): the fixed
table of supported layout pairs 1D/2, 2D/4, 2D/6, 3D/6, 3D/12, kept separate so
claims phrased against the table can be compared with the classifier above. -/
def specTable : List (ℕ × ℕ) := [(1, 2), (2, 4), (2, 6), (3, 6), (3, 12)]

/-- Modelled from the spec (section 3 data model) and the private member list of
the header (lines 110-127).  The method bodies are not in the sources, so the
defining parameters are kept verbatim: direction codes, basic stiffness, optional
basic damping, orientation vectors, moment ratio weights, Rayleigh flag.  The
field betaK is the stiffness proportional Rayleigh coefficient of section 4.4
(owned by the element base class, outside the packed parameters); construction
initializes it to zero. -/
structure SpringElement where
  tag : ℤ
  numDIM : ℕ
  nd1 : ℤ
  nd2 : ℤ
  dirs : List ℕ
  kb : List (List ℚ)
  cb : Option (List (List ℚ))
  x : List ℚ
  y : List ℚ
  Mratio : List ℚ
  addRayleigh : ℤ
  betaK : ℚ
  elemType : Etype
  numDOF : ℕ
  deriving DecidableEq

/-- Shape validation of the optional damping input: when present it must have one
row per declared direction. -/
def dampOk (damp : Option (List (List ℚ))) (n : ℕ) : Bool :=
  match damp with
  | none => true
  | some c => c.length == n

theorem dampOk_iff (damp : Option (List (List ℚ))) (n : ℕ) :
    dampOk damp n = true ↔ ∀ c, damp = some c → c.length = n := by
  cases damp <;> simp [dampOk]

/-- Modelled from the spec: constructor plus Direction Classifier (sections 4.1,
4.3 and 7); the constructor body (LinearElasticSpring.cpp) is missing from the
sources, only its declaration exists (header lines 51-55).  The nodal DOF counts
dofNd1 and dofNd2 come from the node registry; the layout is selected from the
dimension and the total DOF count, every direction code must lie below the per
node DOF count, the stiffness upper triangle must have one row per direction and
is mirrored to a symmetric matrix (section 4.3), likewise the optional damping
matrix.  ConfigurationError is the none result; no partial element is returned. -/
def mkSpring (tag : ℤ) (numDIM : ℕ) (nd1 nd2 : ℤ) (dofNd1 dofNd2 : ℕ)
    (dirs : List ℕ) (kbUpper : List (List ℚ)) (y x Mratio : List ℚ)
    (addRayleigh : ℤ) (damp : Option (List (List ℚ))) : Option SpringElement :=
  match classifyDOF numDIM (dofNd1 + dofNd2) with
  | none => none
  | some t =>
    let numDOF := dofNd1 + dofNd2
    let ok := (dofNd1 == dofNd2) && dirs.all (fun d => d < numDOF / 2) &&
      (kbUpper.length == dirs.length) && dampOk damp dirs.length
    if ok then
      some { tag := tag, numDIM := numDIM, nd1 := nd1, nd2 := nd2, dirs := dirs,
             kb := mirrorUpper kbUpper, cb := damp.map mirrorUpper, x := x, y := y,
             Mratio := Mratio, addRayleigh := addRayleigh, betaK := 0,
             elemType := t, numDOF := numDOF }
    else none

/-- Modelled from the header default arguments (lines 51-55): y, x and Mratio
default to empty vectors, addRayleigh to 0, and the damping matrix pointer to
null. -/
def mkSpringDefault (tag : ℤ) (numDIM : ℕ) (nd1 nd2 : ℤ) (dofNd1 dofNd2 : ℕ)
    (dirs : List ℕ) (kbUpper : List (List ℚ)) : Option SpringElement :=
  mkSpring tag numDIM nd1 nd2 dofNd1 dofNd2 dirs kbUpper [] [] [] 0 none

/-! ### Geometry and transformation builder -/

/-- Entry (i, j) of the block diagonal global to local rotation for a planar
element: the translational pair of each node block is rotated by the direction
cosines, remaining DOFs of the block pass through unchanged. -/
def tglEntry (half : ℕ) (c s : ℚ) (i j : ℕ) : ℚ :=
  if i / half = j / half then
    if i % half = 0 ∧ j % half = 0 then c
    else if i % half = 0 ∧ j % half = 1 then s
    else if i % half = 1 ∧ j % half = 0 then -s
    else if i % half = 1 ∧ j % half = 1 then c
    else if i % half = j % half then 1
    else 0
  else 0

/-- Global to local transformation matrix, one rotation block per node. -/
def tgl2D (numDOF : ℕ) (c s : ℚ) : List (List ℚ) :=
  (List.range numDOF).map (fun i => (List.range numDOF).map (fun j =>
    tglEntry (numDOF / 2) c s i j))

/-- Local to basic transformation: one row per declared direction code, selecting
the relative local displacement of the second node with respect to the first. -/
def tlbSel (dirs : List ℕ) (numDOF : ℕ) : List (List ℚ) :=
  dirs.map (fun d => (List.range numDOF).map (fun j =>
    if j = d + numDOF / 2 then 1 else if j = d then -1 else 0))

/-- Element bound to concrete node geometry: the derived length and the two
transformation matrices of the TransformationSet (spec section 3). -/
structure BoundSpring where
  elem : SpringElement
  L : ℚ
  Tgl : List (List ℚ)
  Tlb : List (List ℚ)
  deriving DecidableEq

/-- Modelled from the spec (section 4.2 Geometry and Transformation Builder) for
the planar default orientation case: the local x axis is the node to node
direction.  The Euclidean length L is supplied by the caller and validated
algebraically (L squared equals the squared distance, L positive) so the model
stays inside the rationals; GeometryError is the none result. -/
def bind2D (e : SpringElement) (x1 y1 x2 y2 L : ℚ) : Option BoundSpring :=
  if L * L = (x2 - x1) * (x2 - x1) + (y2 - y1) * (y2 - y1) ∧ 0 < L then
    some { elem := e, L := L,
           Tgl := tgl2D e.numDOF ((x2 - x1) / L) ((y2 - y1) / L),
           Tlb := tlbSel e.dirs e.numDOF }
  else none

/-! ### Trial and committed state -/

/-- Basic and local state snapshot, matching the header members ub, ubdot, qb and
ul (lines 129-132). -/
structure EState where
  ub : List ℚ
  ubdot : List ℚ
  qb : List ℚ
  ul : List ℚ
  deriving DecidableEq

/-- Modelled from the spec (section 3): exactly one trial and one committed
snapshot per element, plus the accumulated element load vector. -/
structure ElemState where
  trial : EState
  committed : EState
  load : List ℚ
  deriving DecidableEq

/-- Zero snapshot of the right shape for a bound element. -/
def zeroES (b : BoundSpring) : EState :=
  { ub := zeroVec b.elem.dirs.length, ubdot := zeroVec b.elem.dirs.length,
    qb := zeroVec b.elem.dirs.length, ul := zeroVec b.elem.numDOF }

/-- Initial state: all trial and committed entries zero, no load. -/
def initState (b : BoundSpring) : ElemState :=
  { trial := zeroES b, committed := zeroES b, load := zeroVec b.elem.numDOF }

/-! ### State machine (spec section 4.4) -/

/-- Modelled from the spec (section 4.4 update): the local displacement is the
global to local image of the node trial displacements, the basic displacement its
local to basic image, and the basic force is stiffness times basic displacement
plus, when a damping matrix is present, damping times basic velocity.  Returns a
status code (0 on success) and the new state with a fresh trial snapshot. -/
def update (b : BoundSpring) (s : ElemState) (u udot : List ℚ) : ℤ × ElemState :=
  let ul := mulVec b.Tgl u
  let ub := mulVec b.Tlb ul
  let ubdot := mulVec b.Tlb (mulVec b.Tgl udot)
  let qb := match b.elem.cb with
    | none => mulVec b.elem.kb ub
    | some c => vecAdd (mulVec b.elem.kb ub) (mulVec c ubdot)
  (0, { s with trial := { ub := ub, ubdot := ubdot, qb := qb, ul := ul } })

/-- Modelled from the spec (section 4.4): copies Trial into Committed and always
succeeds. -/
def commitState (s : ElemState) : ℤ × ElemState :=
  (0, { s with committed := s.trial })

/-- Modelled from the spec (section 4.4): discards Trial, restores Trial equal to
Committed. -/
def revertToLastCommit (s : ElemState) : ℤ × ElemState :=
  (0, { s with trial := s.committed })

/-- Modelled from the spec (section 4.4): resets both Trial and Committed to the
zero state and clears any accumulated element load. -/
def revertToStart (b : BoundSpring) (_s : ElemState) : ℤ × ElemState :=
  (0, initState b)

/-- Modelled from the spec (section 6 load application entry points). -/
def zeroLoad (b : BoundSpring) (s : ElemState) : ElemState :=
  { s with load := zeroVec b.elem.numDOF }

/-- Modelled from the spec (section 6 load application entry points). -/
def addLoad (s : ElemState) (f : List ℚ) : ElemState :=
  { s with load := vecAdd s.load f }

/-- Fold a sequence of update inputs (displacement and velocity pairs) through the
state machine. -/
def applyUpdates (b : BoundSpring) (s : ElemState) (seq : List (List ℚ × List ℚ)) :
    ElemState :=
  seq.foldl (fun st p => (update b st p.1 p.2).2) s

/-! ### P-Delta corrector (spec section 4.5) -/

/-- Position of the first direction code 0 in the direction list, if any. -/
def findZeroIdx : List ℕ → Option ℕ
  | [] => none
  | d :: t => if d = 0 then some 0 else (findZeroIdx t).map (· + 1)

/-- Modelled from the spec: the axial basic force is the basic force entry whose
direction code is 0 (the local element axis), zero when no axial direction is
declared. -/
def axialForce (b : BoundSpring) (st : EState) : ℚ :=
  match findZeroIdx b.elem.dirs with
  | none => 0
  | some i => st.qb.getD i 0

/-- Modelled from the spec (section 4.5): the correction is active only when the
addRayleigh geometric flag is set and axial force is present. -/
def pdActive (b : BoundSpring) (st : EState) : Bool :=
  (b.elem.addRayleigh != 0) && (axialForce b st != 0)

/-- Modelled from the spec (sections 4.5 and 9): the P-Delta moment, axial force
times relative transverse displacement, is redistributed to the two end rotation
slots of the local force vector in proportion to the moment ratio weights.  The
exact treatment of the unredistributed remainder is an open question in the spec
(section 9); consistent with the testable property of section 8 the remainder is
not applied, so every added term carries a moment ratio factor.  Rotation slot
indices follow the planar layout (local index 2 of each node block). -/
def addPDeltaForces (b : BoundSpring) (st : EState) (pl : List ℚ) : List ℚ :=
  if pdActive b st then
    let half := b.elem.numDOF / 2
    let mpd := axialForce b st * (st.ul.getD (half + 1) 0 - st.ul.getD 1 0)
    addAt (addAt pl 2 (b.elem.Mratio.getD 0 0 * mpd)) (half + 2)
      (b.elem.Mratio.getD 1 0 * mpd)
  else pl

/-- Modelled from the spec (section 4.5): the linearized geometric stiffness
matching addPDeltaForces, the derivative of the added moments with respect to the
transverse local displacements. -/
def addPDeltaStiff (b : BoundSpring) (st : EState) (kl : List (List ℚ)) :
    List (List ℚ) :=
  if pdActive b st then
    let n := axialForce b st
    let half := b.elem.numDOF / 2
    let w1 := b.elem.Mratio.getD 0 0
    let w2 := b.elem.Mratio.getD 1 0
    matAddAt (matAddAt (matAddAt (matAddAt kl 2 1 (-(w1 * n))) 2 (half + 1)
      (w1 * n)) (half + 2) 1 (-(w2 * n))) (half + 2) (half + 1) (w2 * n)
  else kl

/-! ### Force and stiffness queries (spec section 4.4) -/

/-- Local image of the basic force through the transpose of the local to basic
transformation. -/
def basicLocalForce (b : BoundSpring) (st : EState) : List ℚ :=
  tmulVec b.Tlb st.qb b.elem.numDOF

/-- Modelled from the spec (section 4.4): map the basic force back to global
coordinates through the transpose of the combined transformation, optionally
adding the P-Delta correction and any directly applied element load. -/
def resistingForce (b : BoundSpring) (s : ElemState) : List ℚ :=
  vecAdd (tmulVec b.Tgl (addPDeltaForces b s.trial (basicLocalForce b s.trial))
    b.elem.numDOF) s.load

/-- Modelled from the spec (section 4.4): pure read, no state change. -/
def getResistingForce (b : BoundSpring) (s : ElemState) : List ℚ × ElemState :=
  (resistingForce b s, s)

/-- Basic stiffness mapped to the local system through the transformation chain. -/
def localStiff (b : BoundSpring) : List (List ℚ) :=
  matMul (matMul (transposeL b.Tlb b.elem.numDOF) b.elem.kb b.elem.dirs.length)
    b.Tlb b.elem.numDOF

/-- Local stiffness mapped to the global system. -/
def globalStiffOf (b : BoundSpring) (kl : List (List ℚ)) : List (List ℚ) :=
  matMul (matMul (transposeL b.Tgl b.elem.numDOF) kl b.elem.numDOF) b.Tgl
    b.elem.numDOF

/-- Modelled from the spec (section 4.4): the initial stiffness is the constant
global image of the basic stiffness and ignores any P-Delta correction; it reads
no trial state at all. -/
def getInitialStiff (b : BoundSpring) : List (List ℚ) :=
  globalStiffOf b (localStiff b)

/-- Tangent stiffness value: the same constant global stiffness, with the
P-Delta correction applied in the local system when active. -/
def tangentStiff (b : BoundSpring) (s : ElemState) : List (List ℚ) :=
  globalStiffOf b (addPDeltaStiff b s.trial (localStiff b))

/-- Modelled from the spec (section 4.4): pure read, no state change. -/
def getTangentStiff (b : BoundSpring) (s : ElemState) :
    List (List ℚ) × ElemState :=
  (tangentStiff b s, s)

/-- Modelled from the spec (section 4.4): the element is massless, so the only
inertia related addition is the Rayleigh stiffness proportional damping force,
betaK times stiffness times velocity, mapped to global coordinates; it
participates only when the addRayleigh flag is set. -/
def rayleighForce (b : BoundSpring) (st : EState) : List ℚ :=
  tmulVec b.Tgl (tmulVec b.Tlb (smulVec b.elem.betaK (mulVec b.elem.kb st.ubdot))
    b.elem.numDOF) b.elem.numDOF

/-- Resisting force including inertia effects (spec section 4.4). -/
def resistingForceIncInertia (b : BoundSpring) (s : ElemState) : List ℚ :=
  if b.elem.addRayleigh != 0 then
    vecAdd (resistingForce b s) (rayleighForce b s.trial)
  else resistingForce b s

/-- Modelled from the spec (section 4.4): pure read, no state change. -/
def getResistingForceIncInertia (b : BoundSpring) (s : ElemState) :
    List ℚ × ElemState :=
  (resistingForceIncInertia b s, s)

/-! ### Serialization codec (spec section 4.6) -/

/-- Modelled from the spec (section 4.6): the packed field layout carries the
element tag, dimension, node id pair, the DOF count fixed by the classifier,
direction code list, stiffness matrix, damping presence flag and contents,
orientation vectors, moment ratio vector and Rayleigh flag.  No transient trial
or committed state is part of the layout. -/
structure Packet where
  tag : ℤ
  numDIM : ℕ
  nd1 : ℤ
  nd2 : ℤ
  numDOF : ℕ
  dirs : List ℕ
  kbData : List (List ℚ)
  cbFlag : Bool
  cbData : List (List ℚ)
  x : List ℚ
  y : List ℚ
  Mratio : List ℚ
  addRayleigh : ℤ
  deriving DecidableEq

/-- Modelled from the spec (section 4.6 sendSelf): pack the defining parameters. -/
def pack (e : SpringElement) : Packet :=
  { tag := e.tag, numDIM := e.numDIM, nd1 := e.nd1, nd2 := e.nd2,
    numDOF := e.numDOF, dirs := e.dirs, kbData := e.kb,
    cbFlag := e.cb.isSome, cbData := e.cb.getD [], x := e.x, y := e.y,
    Mratio := e.Mratio, addRayleigh := e.addRayleigh }

/-- Modelled from the spec (sections 4.6 and 7 recvSelf): reconstruct the element
after re-running the classifier and the shape validation; DecodeError is the none
result and no partially populated element is produced.  The Rayleigh proportional
coefficient is not part of the wire layout and restarts at zero. -/
def unpack (p : Packet) : Option SpringElement :=
  match classifyDOF p.numDIM p.numDOF with
  | none => none
  | some t =>
    let ok := p.dirs.all (fun d => d < p.numDOF / 2) &&
      (p.kbData.length == p.dirs.length) &&
      p.kbData.all (fun r => r.length == p.dirs.length) &&
      (if p.cbFlag then
        (p.cbData.length == p.dirs.length) &&
          p.cbData.all (fun r => r.length == p.dirs.length)
       else p.cbData.length == 0)
    if ok then
      some { tag := p.tag, numDIM := p.numDIM, nd1 := p.nd1, nd2 := p.nd2,
             dirs := p.dirs, kb := p.kbData,
             cb := if p.cbFlag then some p.cbData else none,
             x := p.x, y := p.y, Mratio := p.Mratio,
             addRayleigh := p.addRayleigh, betaK := 0, elemType := t,
             numDOF := p.numDOF }
    else none

/-! ### Class wide scratch storage (header lines 136-148) -/

/-- Storage classes a scratch workspace could have. -/
inductive ScratchStorage
  | classWideStatic
  | stackAllocated
  | threadLocal
  deriving DecidableEq

/-- From the header (lines 140-148): the scratch matrices and vectors are declared
static, commented as single copy for all objects of the class. -/
def scratchStorage : ScratchStorage := ScratchStorage.classWideStatic

/-- From the header (lines 136-148): theMatrix and theVector point to the class
wide static workspace selected by the element DOF count (M2/V2, M4/V4, M6/V6,
M12/V12). -/
def scratchBuffer (numDOF : ℕ) : Option ℕ :=
  if numDOF = 2 then some 0
  else if numDOF = 4 then some 1
  else if numDOF = 6 then some 2
  else if numDOF = 12 then some 3
  else none

/-! ### Shared lemmas about the embedded operations -/

theorem classifyDOF_isSome_iff_mem (m n : ℕ) :
    (classifyDOF m n).isSome = true ↔ (m, n) ∈ specTable := by
  unfold classifyDOF specTable
  split_ifs <;> simp_all

theorem mirrorUpper_length (U : List (List ℚ)) :
    (mirrorUpper U).length = U.length := by
  simp [mirrorUpper]

theorem mirrorUpper_rows (U : List (List ℚ)) :
    ∀ r ∈ mirrorUpper U, r.length = U.length := by
  intro r hr
  simp only [mirrorUpper, List.mem_map] at hr
  obtain ⟨i, _, hi⟩ := hr
  simp [← hi]

theorem mkSpring_some_inv {tag : ℤ} {dim : ℕ} {nd1 nd2 : ℤ} {dof1 dof2 : ℕ}
    {dirs : List ℕ} {kbU : List (List ℚ)} {y x Mr : List ℚ} {aR : ℤ}
    {damp : Option (List (List ℚ))} {e : SpringElement}
    (h : mkSpring tag dim nd1 nd2 dof1 dof2 dirs kbU y x Mr aR damp = some e) :
    e = { tag := tag, numDIM := dim, nd1 := nd1, nd2 := nd2, dirs := dirs,
          kb := mirrorUpper kbU, cb := damp.map mirrorUpper, x := x, y := y,
          Mratio := Mr, addRayleigh := aR, betaK := 0, elemType := e.elemType,
          numDOF := dof1 + dof2 } ∧
    classifyDOF dim (dof1 + dof2) = some e.elemType ∧
    dof1 = dof2 ∧ (∀ d ∈ dirs, d < (dof1 + dof2) / 2) ∧
    kbU.length = dirs.length ∧ dampOk damp dirs.length = true := by
  cases hcl : classifyDOF dim (dof1 + dof2) with
  | none => simp [mkSpring, hcl] at h
  | some t =>
    simp only [mkSpring, hcl] at h
    by_cases hok : ((dof1 == dof2) && dirs.all (fun d => d < (dof1 + dof2) / 2) &&
        (kbU.length == dirs.length) && dampOk damp dirs.length) = true
    · rw [if_pos hok] at h
      simp only [Bool.and_eq_true, beq_iff_eq, List.all_eq_true,
        decide_eq_true_eq] at hok
      obtain ⟨⟨⟨h1, h2⟩, h3⟩, h4⟩ := hok
      obtain rfl : _ = e := Option.some.inj h
      exact ⟨rfl, rfl, h1, h2, h3, h4⟩
    · rw [if_neg hok] at h
      exact absurd h (by simp)

theorem mkSpring_isSome_iff (tag : ℤ) (dim : ℕ) (nd1 nd2 : ℤ) (dof1 dof2 : ℕ)
    (dirs : List ℕ) (kbU : List (List ℚ)) (y x Mr : List ℚ) (aR : ℤ)
    (damp : Option (List (List ℚ))) :
    (mkSpring tag dim nd1 nd2 dof1 dof2 dirs kbU y x Mr aR damp).isSome = true ↔
    ((dim, dof1 + dof2) ∈ specTable ∧ dof1 = dof2 ∧
      (∀ d ∈ dirs, d < (dof1 + dof2) / 2) ∧
      kbU.length = dirs.length ∧ dampOk damp dirs.length = true) := by
  constructor
  · intro h
    obtain ⟨e, he⟩ := Option.isSome_iff_exists.mp h
    obtain ⟨_, hcl, h1, h2, h3, h4⟩ := mkSpring_some_inv he
    refine ⟨?_, h1, h2, h3, h4⟩
    rw [← classifyDOF_isSome_iff_mem, hcl]
    rfl
  · rintro ⟨hmem, h1, h2, h3, h4⟩
    rw [← classifyDOF_isSome_iff_mem] at hmem
    obtain ⟨t, ht⟩ := Option.isSome_iff_exists.mp hmem
    simp only [mkSpring, ht]
    have hok : ((dof1 == dof2) && dirs.all (fun d => d < (dof1 + dof2) / 2) &&
        (kbU.length == dirs.length) && dampOk damp dirs.length) = true := by
      simp only [Bool.and_eq_true, beq_iff_eq, List.all_eq_true,
        decide_eq_true_eq]
      exact ⟨⟨⟨h1, h2⟩, h3⟩, h4⟩
    rw [if_pos hok]
    rfl

theorem update_committed (b : BoundSpring) (s : ElemState) (u udot : List ℚ) :
    ((update b s u udot).2).committed = s.committed := rfl

theorem update_load (b : BoundSpring) (s : ElemState) (u udot : List ℚ) :
    ((update b s u udot).2).load = s.load := rfl

theorem applyUpdates_committed (b : BoundSpring) (seq : List (List ℚ × List ℚ)) :
    ∀ s : ElemState, (applyUpdates b s seq).committed = s.committed := by
  induction seq with
  | nil => intro s; rfl
  | cons p t ih =>
    intro s
    show (applyUpdates b ((update b s p.1 p.2).2) t).committed = s.committed
    rw [ih ((update b s p.1 p.2).2), update_committed]

theorem pdActive_of_axial_zero (b : BoundSpring) (st : EState)
    (h : axialForce b st = 0) : pdActive b st = false := by
  simp [pdActive, h]

theorem addPDeltaForces_inactive (b : BoundSpring) (st : EState) (pl : List ℚ)
    (h : pdActive b st = false) : addPDeltaForces b st pl = pl := by
  simp [addPDeltaForces, h]

theorem addPDeltaStiff_inactive (b : BoundSpring) (st : EState)
    (kl : List (List ℚ)) (h : pdActive b st = false) :
    addPDeltaStiff b st kl = kl := by
  simp [addPDeltaStiff, h]

theorem axialForce_of_zero_qb (b : BoundSpring) (st : EState) (k : ℕ)
    (h : st.qb = zeroVec k) : axialForce b st = 0 := by
  unfold axialForce
  cases findZeroIdx b.elem.dirs with
  | none => rfl
  | some i =>
    rw [h]
    exact getD_zeroVec k i

/-- Basic force entry list produced by update with zero displacement and zero
velocity input is a zero vector of some length. -/
theorem update_zero_qb (b : BoundSpring) (s : ElemState) (n m : ℕ) :
    ∃ k, ((update b s (zeroVec n) (zeroVec m)).2).trial.qb = zeroVec k := by
  unfold update
  cases hcb : b.elem.cb with
  | none =>
    refine ⟨b.elem.kb.length, ?_⟩
    simp only [hcb, mulVec_zeroVec]
  | some c =>
    refine ⟨min b.elem.kb.length c.length, ?_⟩
    simp only [hcb, mulVec_zeroVec, vecAdd_zeroVec_zeroVec]

/-- Resisting force of a state whose basic trial force is a zero vector and whose
load is the zero vector of the element DOF count. -/
theorem resistingForce_of_zero_qb (b : BoundSpring) (s : ElemState) (k : ℕ)
    (hq : s.trial.qb = zeroVec k) (hl : s.load = zeroVec b.elem.numDOF) :
    resistingForce b s = zeroVec b.elem.numDOF := by
  have hax := axialForce_of_zero_qb b s.trial k hq
  have hpd := pdActive_of_axial_zero b s.trial hax
  unfold resistingForce
  rw [addPDeltaForces_inactive b s.trial _ hpd]
  unfold basicLocalForce
  rw [hq, tmulVec_zeroVec, tmulVec_zeroVec, hl, vecAdd_zeroVec_zeroVec,
    Nat.min_self]

theorem smulVec_zero_coeff (v : List ℚ) : smulVec 0 v = zeroVec v.length := by
  simp [smulVec, zeroVec, List.map_const']

theorem smulVec_zeroVec (c : ℚ) (n : ℕ) : smulVec c (zeroVec n) = zeroVec n := by
  simp [smulVec, zeroVec, List.map_replicate]

theorem tmulVec_length (M : List (List ℚ)) (v : List ℚ) (n : ℕ) :
    (tmulVec M v n).length = n := by
  simp [tmulVec]

theorem vecAdd_length (a b : List ℚ) :
    (vecAdd a b).length = min a.length b.length := by
  simp [vecAdd]

theorem addPDeltaForces_zero_weights (b : BoundSpring) (st : EState)
    (pl : List ℚ) (hw : ∀ m ∈ b.elem.Mratio, m = 0) :
    addPDeltaForces b st pl = pl := by
  unfold addPDeltaForces
  cases hpd : pdActive b st with
  | false => simp
  | true =>
    have h0 := getD_zero_of_all_zero b.elem.Mratio 0 hw
    have h1 := getD_zero_of_all_zero b.elem.Mratio 1 hw
    simp only [if_true]
    rw [h0, h1, zero_mul]
    simp [addAt_zero]

theorem addPDeltaStiff_zero_weights (b : BoundSpring) (st : EState)
    (kl : List (List ℚ)) (hw : ∀ m ∈ b.elem.Mratio, m = 0) :
    addPDeltaStiff b st kl = kl := by
  unfold addPDeltaStiff
  cases hpd : pdActive b st with
  | false => simp
  | true =>
    have h0 := getD_zero_of_all_zero b.elem.Mratio 0 hw
    have h1 := getD_zero_of_all_zero b.elem.Mratio 1 hw
    simp only [if_true]
    rw [h0, h1, zero_mul]
    simp [matAddAt_zero]

/-! ### Concrete elements used by scenarios, witnesses and counterexamples -/

/-- Element of the section 8 scenario: 2D, two basic directions, stiffness
diag(1000, 2000), all optional parameters defaulted. -/
def eSc : SpringElement :=
  { tag := 1, numDIM := 2, nd1 := 1, nd2 := 2, dirs := [0, 1],
    kb := [[1000, 0], [0, 2000]], cb := none, x := [], y := [], Mratio := [],
    addRayleigh := 0, betaK := 0, elemType := Etype.D2N4, numDOF := 4 }

/-- Scenario element bound to nodes at (0,0) and (3,0). -/
def bSc : BoundSpring :=
  { elem := eSc, L := 3, Tgl := tgl2D 4 1 0, Tlb := tlbSel [0, 1] 4 }

/-- Element with one axial direction, zero stiffness and a unit basic damping
matrix. -/
def eC1 : SpringElement :=
  { tag := 7, numDIM := 2, nd1 := 1, nd2 := 2, dirs := [0],
    kb := [[0]], cb := some [[1]], x := [], y := [], Mratio := [],
    addRayleigh := 0, betaK := 0, elemType := Etype.D2N4, numDOF := 4 }

/-- Damped element bound to nodes at (0,0) and (1,0). -/
def bC1 : BoundSpring :=
  { elem := eC1, L := 1, Tgl := tgl2D 4 1 0, Tlb := tlbSel [0] 4 }

/-! ### Claims -/

/-- C1, counterexample to the claim as stated: for a bound element carrying a
damping matrix, an update with zero displacements and a nonzero velocity input
produces a basic force that is not the basic stiffness applied to the pushed
displacements, because the spec adds the damping times basic velocity term
(section 4.4).  The element is reachable through the constructor and the binder. -/
theorem C1_counterexample :
    mkSpring 7 2 1 2 2 2 [0] [[0]] [] [] [] 0 (some [[1]]) = some eC1 ∧
    bind2D eC1 0 0 1 0 1 = some bC1 ∧
    ((update bC1 (initState bC1) [0, 0, 0, 0] [0, 0, 1, 0]).2).trial.qb ≠
      mulVec eC1.kb (mulVec bC1.Tlb (mulVec bC1.Tgl [0, 0, 0, 0])) := by
  refine ⟨?_, ?_, ?_⟩
  · norm_num [mkSpring, classifyDOF, mirrorUpper, dampOk, eC1, List.range,
      List.range.loop]
  · norm_num [bind2D, bC1, eC1]
  · norm_num [update, bC1, eC1, initState, zeroES, zeroVec, mulVec, dot, vecAdd,
      tgl2D, tglEntry, tlbSel, List.range, List.range.loop]

/-- C1 (amended): for every bound element, update produces the basic force
stiffness times the pushed basic displacement, plus damping times the pushed
basic velocity when a damping matrix is present; with no damping matrix the force
is exactly the stiffness applied to the pushed displacement, a unit basic
displacement along direction i reproduces column i of the basic stiffness, and
the concrete 2D scenario (stiffness diag(1000, 2000), nodes at (0,0) and (3,0),
global displacement (0.01, 0) at node B) yields basic displacement 0.01 along the
axial direction and basic force 10 along it, 0 along direction 2. -/
theorem C1_amended :
    (∀ (b : BoundSpring) (s : ElemState) (u udot : List ℚ), b.elem.cb = none →
      ((update b s u udot).2).trial.qb =
        mulVec b.elem.kb (mulVec b.Tlb (mulVec b.Tgl u))) ∧
    (∀ (b : BoundSpring) (s : ElemState) (u udot : List ℚ) (c : List (List ℚ)),
      b.elem.cb = some c →
      ((update b s u udot).2).trial.qb =
        vecAdd (mulVec b.elem.kb (mulVec b.Tlb (mulVec b.Tgl u)))
          (mulVec c (mulVec b.Tlb (mulVec b.Tgl udot)))) ∧
    (∀ (b : BoundSpring) (s : ElemState) (u udot : List ℚ) (i : ℕ),
      b.elem.cb = none →
      (∀ r ∈ b.elem.kb, r.length = b.elem.dirs.length) →
      i < b.elem.dirs.length →
      mulVec b.Tlb (mulVec b.Tgl u) = unitVec b.elem.dirs.length i →
      ((update b s u udot).2).trial.qb = colOf b.elem.kb i) ∧
    (mkSpring 1 2 1 2 2 2 [0, 1] [[1000, 0], [0, 2000]] [] [] [] 0 none
        = some eSc ∧
     bind2D eSc 0 0 3 0 3 = some bSc ∧
     ((update bSc (initState bSc) [0, 0, 1/100, 0] (zeroVec 4)).2).trial.ub
        = [1/100, 0] ∧
     ((update bSc (initState bSc) [0, 0, 1/100, 0] (zeroVec 4)).2).trial.qb
        = [10, 0]) := by
  refine ⟨?_, ?_, ?_, ?_, ?_, ?_, ?_⟩
  · intro b s u udot hcb
    simp [update, hcb]
  · intro b s u udot c hcb
    simp [update, hcb]
  · intro b s u udot i hcb hrows hi hpush
    have h1 : ((update b s u udot).2).trial.qb =
        mulVec b.elem.kb (mulVec b.Tlb (mulVec b.Tgl u)) := by
      simp [update, hcb]
    rw [h1, hpush]
    exact mulVec_unit b.elem.kb b.elem.dirs.length i hrows hi
  · norm_num [mkSpring, classifyDOF, mirrorUpper, dampOk, eSc, List.range,
      List.range.loop]
  · norm_num [bind2D, bSc, eSc]
  · norm_num [update, bSc, eSc, initState, zeroES, zeroVec, mulVec, dot, tgl2D,
      tglEntry, tlbSel, List.range, List.range.loop]
  · norm_num [update, bSc, eSc, initState, zeroES, zeroVec, mulVec, dot, tgl2D,
      tglEntry, tlbSel, List.range, List.range.loop]

/-- C1, witness for the amended theorem: the unit displacement property applied
to the scenario element at the global displacement (1, 0) of node B, whose pushed
basic displacement is the first basic unit vector, reproduces column 0 of the
basic stiffness. -/
theorem C1_amended_witness :
    bSc.elem.cb = none ∧
    ((update bSc (initState bSc) [0, 0, 1, 0] (zeroVec 4)).2).trial.qb
      = colOf bSc.elem.kb 0 :=
  ⟨rfl, C1_amended.2.2.1 bSc (initState bSc) [0, 0, 1, 0] (zeroVec 4) 0 rfl
    (by norm_num [bSc, eSc]) (by norm_num [bSc, eSc])
    (by norm_num [bSc, eSc, mulVec, dot, tgl2D, tglEntry, tlbSel, unitVec,
      List.range, List.range.loop])⟩

/-- C2, counterexample to the claim as stated: the scenario constructor call has
spatial dimension 2 and direction count 2, a pair outside the claimed supported
table, yet construction succeeds; the table of the header is keyed by the element
DOF count, not by the direction count. -/
theorem C2_counterexample :
    (mkSpring 1 2 1 2 2 2 [0, 1] [[1000, 0], [0, 2000]] [] [] [] 0 none).isSome
      = true ∧
    ((2 : ℕ), ([0, 1] : List ℕ).length) ∉ specTable := by
  constructor
  · norm_num [mkSpring, classifyDOF, dampOk]
  · norm_num [specTable]

/-- C2 (amended): given well shaped stiffness and damping inputs, construction
succeeds exactly when the two nodal DOF counts agree, the dimension paired with
the total element DOF count lies in the supported table, and every direction code
lies below the per node DOF count; on success the classifier selects the
documented layout for that pair and fixes the element DOF count; failure returns
no element at all. -/
theorem C2_amended (tag : ℤ) (dim : ℕ) (nd1 nd2 : ℤ) (dof1 dof2 : ℕ)
    (dirs : List ℕ) (kbU : List (List ℚ)) (y x Mr : List ℚ) (aR : ℤ)
    (damp : Option (List (List ℚ)))
    (hkb : kbU.length = dirs.length) (hdamp : dampOk damp dirs.length = true) :
    ((mkSpring tag dim nd1 nd2 dof1 dof2 dirs kbU y x Mr aR damp).isSome = true ↔
      (dof1 = dof2 ∧ (dim, dof1 + dof2) ∈ specTable ∧
        ∀ d ∈ dirs, d < (dof1 + dof2) / 2)) ∧
    (∀ e, mkSpring tag dim nd1 nd2 dof1 dof2 dirs kbU y x Mr aR damp = some e →
      classifyDOF dim (dof1 + dof2) = some e.elemType ∧
      e.numDOF = dof1 + dof2) := by
  constructor
  · rw [mkSpring_isSome_iff]
    constructor
    · rintro ⟨hm, h1, h2, _, _⟩
      exact ⟨h1, hm, h2⟩
    · rintro ⟨h1, hm, h2⟩
      exact ⟨hm, h1, h2, hkb, hdamp⟩
  · intro e he
    obtain ⟨hrec, hcl, -, -, -, -⟩ := mkSpring_some_inv he
    refine ⟨hcl, ?_⟩
    rw [hrec]

/-- C2, witness for the amended theorem: a 1D element with one nodal DOF per node
and the single axial direction is accepted. -/
theorem C2_amended_witness :
    ([[(1 : ℚ)]] : List (List ℚ)).length = ([0] : List ℕ).length ∧
    dampOk none ([0] : List ℕ).length = true ∧
    (mkSpring 3 1 1 2 1 1 [0] [[1]] [] [] [] 0 none).isSome = true :=
  ⟨rfl, rfl,
    (C2_amended 3 1 1 2 1 1 [0] [[1]] [] [] [] 0 none rfl rfl).1.mpr
      (by norm_num [specTable])⟩

/-- C3: getResistingForce returns the zero vector in the zero state: after an
update with zero applied node displacement (and velocity) under zero accumulated
load the P-Delta pass is inactive and the returned force is zero, and immediately
after revertToStart the force is zero regardless of any prior history. -/
theorem C3_zero_state_force :
    (∀ (b : BoundSpring) (s : ElemState), s.load = zeroVec b.elem.numDOF →
      (getResistingForce b
        ((update b s (zeroVec b.elem.numDOF) (zeroVec b.elem.numDOF)).2)).1
        = zeroVec b.elem.numDOF) ∧
    (∀ (b : BoundSpring) (s : ElemState),
      (getResistingForce b ((revertToStart b s).2)).1 = zeroVec b.elem.numDOF) := by
  constructor
  · intro b s hl
    obtain ⟨k, hq⟩ := update_zero_qb b s b.elem.numDOF b.elem.numDOF
    exact resistingForce_of_zero_qb b _ k hq
      (by rw [update_load]; exact hl)
  · intro b s
    exact resistingForce_of_zero_qb b _ b.elem.dirs.length rfl rfl

/-- C3, witness: the scenario element in its initial state. -/
theorem C3_zero_state_force_witness :
    (initState bSc).load = zeroVec bSc.elem.numDOF ∧
    (getResistingForce bSc
      ((update bSc (initState bSc) (zeroVec bSc.elem.numDOF)
        (zeroVec bSc.elem.numDOF)).2)).1 = zeroVec bSc.elem.numDOF :=
  ⟨rfl, C3_zero_state_force.1 bSc (initState bSc) rfl⟩

/-- C4: the serialization round trip reproduces every defining parameter of a
constructed element exactly (direction list, stiffness, damping presence and
contents, orientation vectors, moment ratio vector, flags), and re-binding the
reconstructed element to any node geometry yields exactly the transformation data
of the original; the wire layout carries no trial or committed state. -/
theorem C4_roundtrip (tag : ℤ) (dim : ℕ) (nd1 nd2 : ℤ) (dof1 dof2 : ℕ)
    (dirs : List ℕ) (kbU : List (List ℚ)) (y x Mr : List ℚ) (aR : ℤ)
    (damp : Option (List (List ℚ))) (e : SpringElement)
    (h : mkSpring tag dim nd1 nd2 dof1 dof2 dirs kbU y x Mr aR damp = some e) :
    unpack (pack e) = some e ∧
    ∀ x1 y1 x2 y2 L : ℚ,
      Option.bind (unpack (pack e)) (fun e2 => bind2D e2 x1 y1 x2 y2 L)
        = bind2D e x1 y1 x2 y2 L := by
  obtain ⟨hrec, hcl, h1, h2, h3, h4⟩ := mkSpring_some_inv h
  have hmain : unpack (pack e) = some e := by
    rw [hrec]
    cases damp with
    | none =>
      simp [pack, unpack, hcl, List.all_eq_true, h3, mirrorUpper_length]
      exact ⟨h2, fun r hr => by rw [mirrorUpper_rows kbU r hr]; exact h3⟩
    | some c =>
      have hc : c.length = dirs.length := (dampOk_iff _ _).mp h4 c rfl
      simp [pack, unpack, hcl, List.all_eq_true, h3, hc, mirrorUpper_length]
      exact ⟨h2, fun r hr => by rw [mirrorUpper_rows kbU r hr]; exact h3,
        fun r hr => by rw [mirrorUpper_rows c r hr]; exact hc⟩
  refine ⟨hmain, ?_⟩
  intro x1 y1 x2 y2 L
  rw [hmain]
  rfl

/-- C4, witness: the scenario constructor call round trips. -/
theorem C4_roundtrip_witness :
    mkSpring 1 2 1 2 2 2 [0, 1] [[1000, 0], [0, 2000]] [] [] [] 0 none
      = some eSc ∧
    unpack (pack eSc) = some eSc := by
  have hmk : mkSpring 1 2 1 2 2 2 [0, 1] [[1000, 0], [0, 2000]] [] [] [] 0 none
      = some eSc := by
    norm_num [mkSpring, classifyDOF, mirrorUpper, dampOk, eSc, List.range,
      List.range.loop]
  exact ⟨hmk, (C4_roundtrip 1 2 1 2 2 2 [0, 1] [[1000, 0], [0, 2000]] [] [] []
    0 none eSc hmk).1⟩

/-- C5: getInitialStiff is the constant global image of the basic stiffness
through the transformation chain and reads no trial state, getTangentStiff is
the same matrix with the P-Delta correction applied in the local system, the two
agree whenever the correction is inactive, and the tangent query changes no
state. -/
theorem C5_tangent_initial (b : BoundSpring) (s : ElemState) :
    getInitialStiff b = globalStiffOf b (localStiff b) ∧
    (getTangentStiff b s).1 =
      globalStiffOf b (addPDeltaStiff b s.trial (localStiff b)) ∧
    (pdActive b s.trial = false →
      (getTangentStiff b s).1 = getInitialStiff b) ∧
    (getTangentStiff b s).2 = s := by
  refine ⟨rfl, rfl, ?_, rfl⟩
  intro h
  show tangentStiff b s = getInitialStiff b
  unfold tangentStiff getInitialStiff
  rw [addPDeltaStiff_inactive b s.trial _ h]

/-- C5, witness: the scenario element in its initial state has no active
correction and tangent equals initial stiffness. -/
theorem C5_tangent_initial_witness :
    pdActive bSc (initState bSc).trial = false ∧
    (getTangentStiff bSc (initState bSc)).1 = getInitialStiff bSc :=
  ⟨rfl, (C5_tangent_initial bSc (initState bSc)).2.2.1 rfl⟩

/-- C6: one trial and one committed snapshot: commitState copies Trial into
Committed, leaves Trial alone and always succeeds (status 0), revertToLastCommit
succeeds and restores Trial from Committed, and after any update sequence, a
commit, any further update sequence and a revertToLastCommit the trial state is
the state at the commit point. -/
theorem C6_commit_revert (b : BoundSpring) (s : ElemState)
    (seq1 seq2 : List (List ℚ × List ℚ)) :
    (commitState s).1 = 0 ∧ (commitState s).2.committed = s.trial ∧
    (commitState s).2.trial = s.trial ∧
    (revertToLastCommit s).1 = 0 ∧
    (revertToLastCommit s).2.trial = s.committed ∧
    (revertToLastCommit (applyUpdates b (commitState (applyUpdates b s seq1)).2
      seq2)).2.trial = (applyUpdates b s seq1).trial := by
  refine ⟨rfl, rfl, rfl, rfl, rfl, ?_⟩
  show (applyUpdates b (commitState (applyUpdates b s seq1)).2 seq2).committed
      = (applyUpdates b s seq1).trial
  rw [applyUpdates_committed]
  rfl

/-- Element with one axial direction, unit stiffness, zero moment ratio weights
and a unit stiffness proportional Rayleigh coefficient. -/
def e7 : SpringElement :=
  { tag := 9, numDIM := 2, nd1 := 1, nd2 := 2, dirs := [0],
    kb := [[1]], cb := none, x := [], y := [], Mratio := [0, 0],
    addRayleigh := 0, betaK := 1, elemType := Etype.D2N4, numDOF := 4 }

/-- The e7 element bound to nodes at (0,0) and (1,0). -/
def b7 : BoundSpring :=
  { elem := e7, L := 1, Tgl := tgl2D 4 1 0, Tlb := tlbSel [0] 4 }

/-- Same bound element with the addRayleigh flag switched on. -/
def b7on : BoundSpring :=
  { elem := { e7 with addRayleigh := 1 }, L := 1, Tgl := tgl2D 4 1 0,
    Tlb := tlbSel [0] 4 }

/-- State reached from the initial state by an update with zero displacement and
a unit axial velocity at the second node. -/
def st7 : ElemState := (update b7 (initState b7) [0, 0, 0, 0] [0, 0, 1, 0]).2

/-- C7, counterexample to the claim as stated: on an element whose moment ratio
weights are all zero but whose stiffness proportional Rayleigh coefficient is
nonzero, flipping the addRayleigh flag changes getResistingForceIncInertia,
because the same flag also enables the Rayleigh damping term (spec section 4.4);
the claim is false for that query. -/
theorem C7_counterexample :
    (∀ m ∈ b7.elem.Mratio, m = 0) ∧
    resistingForceIncInertia b7on st7 ≠ resistingForceIncInertia b7 st7 := by
  constructor
  · intro m hm
    simp [b7, e7] at hm
    simp [hm]
  · norm_num [resistingForceIncInertia, resistingForce, rayleighForce,
      basicLocalForce, addPDeltaForces, pdActive, axialForce, findZeroIdx, b7on,
      b7, e7, st7, update, initState, zeroES, zeroVec, mulVec, tmulVec, smulVec,
      vecAdd, dot, colOf, tgl2D, tglEntry, tlbSel, List.range, List.range.loop,
      List.replicate]

/-- C7 (amended): with all moment ratio weights zero, flipping the addRayleigh
flag leaves getResistingForce and getTangentStiff unchanged (the P-Delta pass
vanishes); getResistingForceIncInertia is also unchanged provided the Rayleigh
stiffness proportional term vanishes, that is when the coefficient betaK is zero
or the trial basic velocity is zero, since the same flag gates Rayleigh damping. -/
theorem C7_amended (b : BoundSpring) (s : ElemState) (r : ℤ)
    (hw : ∀ m ∈ b.elem.Mratio, m = 0) :
    (resistingForce { b with elem := { b.elem with addRayleigh := r } } s =
      resistingForce { b with elem := { b.elem with addRayleigh := 0 } } s) ∧
    ((getTangentStiff { b with elem := { b.elem with addRayleigh := r } } s).1 =
      (getTangentStiff { b with elem := { b.elem with addRayleigh := 0 } } s).1) ∧
    ((b.elem.betaK = 0 ∨ s.trial.ubdot = zeroVec b.elem.kb.length) →
      resistingForceIncInertia { b with elem := { b.elem with addRayleigh := r } }
          s =
        resistingForceIncInertia { b with elem := { b.elem with addRayleigh := 0 } }
          s) := by
  set bOn : BoundSpring := { b with elem := { b.elem with addRayleigh := r } }
  set bOff : BoundSpring := { b with elem := { b.elem with addRayleigh := 0 } }
  have hwOn : ∀ m ∈ bOn.elem.Mratio, m = 0 := hw
  have hwOff : ∀ m ∈ bOff.elem.Mratio, m = 0 := hw
  have hrf : resistingForce bOn s = resistingForce bOff s := by
    unfold resistingForce
    rw [addPDeltaForces_zero_weights bOn s.trial _ hwOn,
      addPDeltaForces_zero_weights bOff s.trial _ hwOff]
    rfl
  refine ⟨hrf, ?_, ?_⟩
  · show tangentStiff bOn s = tangentStiff bOff s
    unfold tangentStiff
    rw [addPDeltaStiff_zero_weights bOn s.trial _ hwOn,
      addPDeltaStiff_zero_weights bOff s.trial _ hwOff]
    rfl
  · intro hray
    have hzero : rayleighForce bOn s.trial = zeroVec b.elem.numDOF := by
      rcases hray with hbk | hub
      · show tmulVec b.Tgl (tmulVec b.Tlb
            (smulVec b.elem.betaK (mulVec b.elem.kb s.trial.ubdot))
            b.elem.numDOF) b.elem.numDOF = zeroVec b.elem.numDOF
        rw [hbk, smulVec_zero_coeff, tmulVec_zeroVec, tmulVec_zeroVec]
      · show tmulVec b.Tgl (tmulVec b.Tlb
            (smulVec b.elem.betaK (mulVec b.elem.kb s.trial.ubdot))
            b.elem.numDOF) b.elem.numDOF = zeroVec b.elem.numDOF
        rw [hub, mulVec_zeroVec, smulVec_zeroVec, tmulVec_zeroVec, tmulVec_zeroVec]
    have hlen : (resistingForce bOn s).length ≤ b.elem.numDOF := by
      show (vecAdd (tmulVec b.Tgl
        (addPDeltaForces bOn s.trial (basicLocalForce bOn s.trial))
        b.elem.numDOF) s.load).length ≤ b.elem.numDOF
      rw [vecAdd_length, tmulVec_length]
      exact min_le_left _ _
    have hoff : resistingForceIncInertia bOff s = resistingForce bOff s := by
      have hc : (bOff.elem.addRayleigh != 0) = false := rfl
      unfold resistingForceIncInertia
      rw [hc]
      simp
    cases hr0 : (r != 0) with
    | false =>
      have hr : r = 0 := by simpa using hr0
      subst hr
      rfl
    | true =>
      have hcOn : (bOn.elem.addRayleigh != 0) = true := hr0
      unfold resistingForceIncInertia
      rw [hcOn]
      simp only [if_true]
      rw [hzero, vecAdd_zeroVec_right _ _ hlen, hrf]
      have hc : (bOff.elem.addRayleigh != 0) = false := rfl
      rw [hc]
      simp

/-- C7, witness for the amended theorem: the scenario element (zero weights, zero
Rayleigh coefficient) gives identical answers for every query under a flag flip. -/
theorem C7_amended_witness :
    (∀ m ∈ bSc.elem.Mratio, m = 0) ∧
    resistingForceIncInertia
        { bSc with elem := { bSc.elem with addRayleigh := 5 } } (initState bSc) =
      resistingForceIncInertia
        { bSc with elem := { bSc.elem with addRayleigh := 0 } } (initState bSc) :=
  ⟨by simp [bSc, eSc], (C7_amended bSc (initState bSc) 5 (by simp [bSc, eSc])).2.2
    (Or.inl rfl)⟩

/-- C8: the P-Delta pass changes nothing unless the addRayleigh geometric flag is
set and axial basic force is present (and when active those two conditions hold),
and the force and tangent queries never modify the element state, in particular
neither the stored basic force nor the constant basic stiffness matrix. -/
theorem C8_pdelta_scope (b : BoundSpring) (st : EState) (pl : List ℚ)
    (kl : List (List ℚ)) (s : ElemState) :
    ((b.elem.addRayleigh = 0 ∨ axialForce b st = 0) →
      addPDeltaForces b st pl = pl ∧ addPDeltaStiff b st kl = kl) ∧
    (pdActive b st = true → b.elem.addRayleigh ≠ 0 ∧ axialForce b st ≠ 0) ∧
    (getResistingForce b s).2 = s ∧ (getTangentStiff b s).2 = s ∧
    (getResistingForce b s).2.trial.qb = s.trial.qb ∧
    (getTangentStiff b s).2.trial.qb = s.trial.qb := by
  refine ⟨?_, ?_, rfl, rfl, rfl, rfl⟩
  · intro h
    have hpd : pdActive b st = false := by
      rcases h with h | h <;> simp [pdActive, h]
    exact ⟨addPDeltaForces_inactive b st pl hpd,
      addPDeltaStiff_inactive b st kl hpd⟩
  · intro h
    simpa [pdActive, Bool.and_eq_true, bne_iff_ne] using h

/-- C8, witness: the scenario element in its initial state (flag clear) is left
untouched by the P-Delta pass. -/
theorem C8_pdelta_scope_witness :
    (bSc.elem.addRayleigh = 0 ∨ axialForce bSc (initState bSc).trial = 0) ∧
    addPDeltaForces bSc (initState bSc).trial [0, 0, 0, 0] = [0, 0, 0, 0] :=
  ⟨Or.inl rfl,
    ((C8_pdelta_scope bSc (initState bSc).trial [0, 0, 0, 0] []
      (initState bSc)).1 (Or.inl rfl)).1⟩

/-- Planar element with three directions and six DOFs. -/
def e9A : SpringElement :=
  { tag := 1, numDIM := 2, nd1 := 1, nd2 := 2, dirs := [0, 1, 2],
    kb := [[1, 0, 0], [0, 1, 0], [0, 0, 1]], cb := none, x := [], y := [],
    Mratio := [], addRayleigh := 0, betaK := 0, elemType := Etype.D2N6,
    numDOF := 6 }

/-- A second, distinct element of the same DOF count. -/
def e9B : SpringElement := { e9A with tag := 2 }

/-- C9, counterexample to the claim as stated: the header declares the scratch
workspaces as class wide static storage (single copy for all objects), not stack
allocated and not thread local, and two distinct elements of the same DOF count
resolve to the same workspace. -/
theorem C9_counterexample :
    (scratchStorage ≠ ScratchStorage.stackAllocated ∧
     scratchStorage ≠ ScratchStorage.threadLocal) ∧
    e9A ≠ e9B ∧
    scratchBuffer e9A.numDOF = scratchBuffer e9B.numDOF ∧
    (scratchBuffer e9A.numDOF).isSome = true := by
  refine ⟨⟨?_, ?_⟩, ?_, rfl, ?_⟩
  · intro h
    exact absurd h (by simp [scratchStorage])
  · intro h
    exact absurd h (by simp [scratchStorage])
  · intro h
    have : (1 : ℤ) = 2 := congrArg SpringElement.tag h
    exact absurd this (by norm_num)
  · simp [scratchBuffer, e9A]

/-- C9 (amended): the per element persistent data is unshared, but the fixed size
stiffness and force workspaces are class wide static storage shared by all
elements of equal DOF count. -/
theorem C9_amended :
    scratchStorage = ScratchStorage.classWideStatic ∧
    ∀ e1 e2 : SpringElement, e1.numDOF = e2.numDOF →
      scratchBuffer e1.numDOF = scratchBuffer e2.numDOF :=
  ⟨rfl, fun e1 e2 h => by rw [h]⟩

/-- C9, witness for the amended theorem: the two distinct six DOF elements share
the workspace. -/
theorem C9_amended_witness :
    e9A.numDOF = e9B.numDOF ∧
    scratchBuffer e9A.numDOF = scratchBuffer e9B.numDOF :=
  ⟨rfl, C9_amended.2 e9A e9B rfl⟩

/-- C10: the constructor permits omitting the orientation vectors, the moment
ratio vector, the Rayleigh flag and the damping matrix, which default to empty
vectors, flag 0 and no damping; an element built with the defaults has empty
orientation (so the geometry builder uses the node to node default), an inert
P-Delta pass, coinciding resisting forces with and without inertia, and a basic
force that is exactly stiffness times pushed displacement. -/
theorem C10_defaults (tag : ℤ) (dim : ℕ) (nd1 nd2 : ℤ) (dof1 dof2 : ℕ)
    (dirs : List ℕ) (kbU : List (List ℚ)) :
    mkSpringDefault tag dim nd1 nd2 dof1 dof2 dirs kbU =
      mkSpring tag dim nd1 nd2 dof1 dof2 dirs kbU [] [] [] 0 none ∧
    ∀ e, mkSpringDefault tag dim nd1 nd2 dof1 dof2 dirs kbU = some e →
      e.x = [] ∧ e.y = [] ∧ e.Mratio = [] ∧ e.addRayleigh = 0 ∧ e.cb = none ∧
      (∀ (b : BoundSpring) (st : EState) (pl : List ℚ), b.elem = e →
        addPDeltaForces b st pl = pl) ∧
      (∀ (b : BoundSpring) (s : ElemState), b.elem = e →
        resistingForceIncInertia b s = resistingForce b s) ∧
      (∀ (b : BoundSpring) (s : ElemState) (u udot : List ℚ), b.elem = e →
        ((update b s u udot).2).trial.qb =
          mulVec e.kb (mulVec b.Tlb (mulVec b.Tgl u))) := by
  refine ⟨rfl, ?_⟩
  intro e he
  obtain ⟨hrec, -, -, -, -, -⟩ := mkSpring_some_inv he
  have hx : e.x = [] := by rw [hrec]
  have hy : e.y = [] := by rw [hrec]
  have hm : e.Mratio = [] := by rw [hrec]
  have har : e.addRayleigh = 0 := by rw [hrec]
  have hcb : e.cb = none := by rw [hrec]; rfl
  refine ⟨hx, hy, hm, har, hcb, ?_, ?_, ?_⟩
  · intro b st pl hb
    have hpd : pdActive b st = false := by
      simp [pdActive, hb, har]
    exact addPDeltaForces_inactive b st pl hpd
  · intro b s hb
    unfold resistingForceIncInertia
    have har2 : b.elem.addRayleigh = 0 := by rw [hb, har]
    rw [har2]
    simp
  · intro b s u udot hb
    have hcb2 : b.elem.cb = none := by rw [hb, hcb]
    have hkb : b.elem.kb = e.kb := by rw [hb]
    simp [update, hcb2, hkb]

/-- C10, witness: the scenario constructor call through the defaulted signature. -/
theorem C10_defaults_witness :
    mkSpringDefault 1 2 1 2 2 2 [0, 1] [[1000, 0], [0, 2000]] = some eSc ∧
    eSc.addRayleigh = 0 ∧ eSc.cb = none := by
  have hmk : mkSpringDefault 1 2 1 2 2 2 [0, 1] [[1000, 0], [0, 2000]]
      = some eSc := by
    norm_num [mkSpringDefault, mkSpring, classifyDOF, mirrorUpper, dampOk, eSc,
      List.range, List.range.loop]
  have hfacts := (C10_defaults 1 2 1 2 2 2 [0, 1] [[1000, 0], [0, 2000]]).2
    eSc hmk
  exact ⟨hmk, hfacts.2.2.2.1, hfacts.2.2.2.2.1⟩

end LES
